import Mathlib

/-!
Verification of the CSV-to-SQLite ingestion pipeline in
`src/create_database.py` (function `create_football_database`).

The development shallowly embeds the program:
  * a pandas `DataFrame` is a `Table`: an ordered list of named, typed
    columns, each holding a list of cell values;
  * `Series.astype('int64')` is `Table.astypeInt64`: it fails (as the
    numpy cast does) on missing values (`NaN` / `None`) and on strings
    that do not denote integers, and truncates finite floats toward zero;
  * the fixed sequence of `astype` assignments on lines 34-42 and 54-55
    is `coerceReceiving` / `coerceRoster`;
  * `DataFrame.to_sql(name, conn, if_exists='replace', index=False)` is
    `storeWrite` on an association-list store;
  * the whole `create_football_database` procedure is `run`, which also
    records a trace of the observable events (existence checks, parses,
    coercions, connection open/close, writes, verification queries, and
    the one printed error line of the `except` block on line 116) and
    whether the sqlite connection was opened and closed.
-/

/-- The value stored in one cell of a parsed table.  `vInt` / `vFloat` /
`vStr` are ordinary int64 / float64 / object cells; `vNaN` is a missing
numeric entry (pandas `NaN`), `vNone` a missing object entry. -/
inductive Value where
  | vInt (i : Int)
  | vFloat (q : Rat)
  | vNaN
  | vStr (s : String)
  | vNone
  deriving DecidableEq, Repr

/-- The per-column dtype recorded by pandas. -/
inductive Dtype where
  | int64
  | float64
  | object
  deriving DecidableEq, Repr

/-- One named column of a data frame: its name, dtype and cell values. -/
structure Column where
  name : String
  dtype : Dtype
  values : List Value
  deriving DecidableEq, Repr

/-- A data frame: an ordered list of columns. -/
structure Table where
  cols : List Column
  deriving DecidableEq, Repr

/-- The ordered list of column names of a table. -/
def Table.colNames (t : Table) : List String :=
  t.cols.map Column.name

/-- The per-column cell counts of a table (all equal to the row count for
a rectangular frame). -/
def Table.rowCounts (t : Table) : List Nat :=
  t.cols.map (fun col => col.values.length)

/-- First column of the given name, as `df[c]` selects it. -/
def lookupCol (cols : List Column) (c : String) : Option Column :=
  cols.find? (fun col => col.name == c)

/-- Column selection on a table. -/
def Table.lookup (t : Table) (c : String) : Option Column :=
  lookupCol t.cols c

/-- Whether a column of the given name exists. -/
def hasCol (cols : List Column) (c : String) : Bool :=
  cols.any (fun col => col.name == c)

/-- The numpy int64 cast of one cell, as `astype('int64')` applies it:
ints pass through, finite floats truncate toward zero, missing values
raise (`Cannot convert non-finite values ...` / a `TypeError`), strings
must spell an integer. -/
def coerceValueToInt : Value → Except String Value
  | Value.vInt i => Except.ok (Value.vInt i)
  | Value.vFloat q => Except.ok (Value.vInt (Int.tdiv q.num (q.den : Int)))
  | Value.vNaN =>
      Except.error "Cannot convert non-finite values (NA or inf) to integer"
  | Value.vStr s =>
      match s.toInt? with
      | some i => Except.ok (Value.vInt i)
      | none => Except.error ("invalid literal for int with base 10: " ++ s)
  | Value.vNone =>
      Except.error "int() argument cannot be NoneType"

/-- The int64 cast applied to every cell of a column, first failure wins. -/
def coerceValues : List Value → Except String (List Value)
  | [] => Except.ok []
  | v :: vs =>
    match coerceValueToInt v with
    | Except.error e => Except.error e
    | Except.ok w =>
      match coerceValues vs with
      | Except.error e => Except.error e
      | Except.ok ws => Except.ok (w :: ws)

/-- `col.astype('int64')`: cast every cell, record dtype `int64`. -/
def coerceColumnToInt (col : Column) : Except String Column :=
  match coerceValues col.values with
  | Except.error e => Except.error e
  | Except.ok ws => Except.ok ⟨col.name, Dtype.int64, ws⟩

/-- Apply the int64 cast to every column named `c`, leaving the others
in place (the column-list effect of `df[c] = df[c].astype('int64')`). -/
def coerceCols (c : String) : List Column → Except String (List Column)
  | [] => Except.ok []
  | col :: rest =>
    match (if col.name == c then coerceColumnToInt col else Except.ok col) with
    | Except.error e => Except.error e
    | Except.ok col2 =>
      match coerceCols c rest with
      | Except.error e => Except.error e
      | Except.ok rest2 => Except.ok (col2 :: rest2)

/-- `df[c] = df[c].astype('int64')`: a `KeyError` if the column is
absent, otherwise the cast of that column with all others untouched. -/
def Table.astypeInt64 (t : Table) (c : String) : Except String Table :=
  if hasCol t.cols c then
    match coerceCols c t.cols with
    | Except.error e => Except.error e
    | Except.ok cols2 => Except.ok ⟨cols2⟩
  else Except.error ("KeyError: " ++ c)

/-- The sequence of `astype` assignments for one fixed list of column
names, in program order. -/
def coerceColumns : Table → List String → Except String Table
  | t, [] => Except.ok t
  | t, c :: cs =>
    match t.astypeInt64 c with
    | Except.error e => Except.error e
    | Except.ok t2 => coerceColumns t2 cs

/-- The receiving columns cast to int64 on lines 34-42, in source order. -/
def receivingIntCols : List String :=
  ["#", "GP", "NO", "YDS", "TD", "Long", "PlayerID"]

/-- The roster columns cast to int64 on lines 54-55, in source order. -/
def rosterIntCols : List String :=
  ["id", "number"]

/-- The coercion block for `receiving_df` (lines 34-42). -/
def coerceReceiving (t : Table) : Except String Table :=
  coerceColumns t receivingIntCols

/-- The coercion block for `roster_df` (lines 54-55). -/
def coerceRoster (t : Table) : Except String Table :=
  coerceColumns t rosterIntCols

/-- The sqlite store: an association list from table name to the stored
table (schema and rows; `index=False`, so exactly the frame's columns). -/
abbrev Store := List (String × Table)

/-- Read back a stored table by name. -/
def storeLookup (s : Store) (nm : String) : Option Table :=
  (s.find? (fun p => p.1 == nm)).map Prod.snd

/-- `df.to_sql(nm, conn, if_exists='replace', index=False)`: drop any
existing table of that name and recreate it from the frame. -/
def storeWrite (s : Store) (nm : String) (t : Table) : Store :=
  s.filter (fun p => p.1 != nm) ++ [(nm, t)]

/-- The fixed relative path of the receiving CSV (line 17). -/
def receivingCsvPath : String := "Data/receiving.csv"

/-- The fixed relative path of the roster CSV (line 18). -/
def rosterCsvPath : String := "Data/roster.csv"

/-- The observable events of one run, in order. -/
inductive Event where
  | checkExists (path : String)
  | parseFile (path : String)
  | coerceTable (nm : String)
  | openConn
  | writeTable (nm : String)
  | verifyTable (nm : String)
  | printError (msg : String)
  | closeConn
  deriving DecidableEq, Repr

/-- How a run can fail: `Path.exists` check failing (lines 21-24), an
error out of an `astype` block, or an error raised by sqlite during the
`to_sql` writes / verification queries. -/
inductive RunError where
  | fileNotFound (path : String)
  | coercionError (msg : String)
  | storeError (msg : String)
  deriving DecidableEq, Repr

deriving instance DecidableEq for Except

/-- Everything observable about one run of `create_football_database`:
the event trace, the final store, whether the sqlite connection was ever
opened, whether it was closed, and the outcome. -/
structure RunResult where
  trace : List Event
  store : Store
  connOpened : Bool
  connClosed : Bool
  outcome : Except RunError Unit
  deriving DecidableEq, Repr

/-- `create_football_database` itself.  `orc` / `oro` are the parses the
filesystem would give for the two CSV paths (`none` = file missing);
`store0` is the prior content of `football_data.db`; `fault nm` is
`some msg` when the sqlite layer raises `msg` while writing table `nm`.
The trace mirrors the source line by line: the two existence checks
(21-24), `read_csv` + `astype` block for receiving (30-42), the same for
roster (51-55), `sqlite3.connect` (67), the `try` block with the two
`to_sql` writes and the verification queries (69-113), the one-line
`print` of the `except` clause (116), and the `finally: conn.close()`
(118-119). -/
def run (orc oro : Option Table) (store0 : Store)
    (fault : String → Option String) : RunResult :=
  match orc with
  | none =>
    { trace := [Event.checkExists receivingCsvPath]
      store := store0
      connOpened := false
      connClosed := false
      outcome := Except.error (RunError.fileNotFound receivingCsvPath) }
  | some rcvRaw =>
    match oro with
    | none =>
      { trace := [Event.checkExists receivingCsvPath,
                  Event.checkExists rosterCsvPath]
        store := store0
        connOpened := false
        connClosed := false
        outcome := Except.error (RunError.fileNotFound rosterCsvPath) }
    | some rosRaw =>
      match coerceReceiving rcvRaw with
      | Except.error e =>
        { trace := [Event.checkExists receivingCsvPath,
                    Event.checkExists rosterCsvPath,
                    Event.parseFile receivingCsvPath,
                    Event.coerceTable "receiving"]
          store := store0
          connOpened := false
          connClosed := false
          outcome := Except.error (RunError.coercionError e) }
      | Except.ok rcv =>
        match coerceRoster rosRaw with
        | Except.error e =>
          { trace := [Event.checkExists receivingCsvPath,
                      Event.checkExists rosterCsvPath,
                      Event.parseFile receivingCsvPath,
                      Event.coerceTable "receiving",
                      Event.parseFile rosterCsvPath,
                      Event.coerceTable "roster"]
            store := store0
            connOpened := false
            connClosed := false
            outcome := Except.error (RunError.coercionError e) }
        | Except.ok ros =>
          let pre : List Event :=
            [Event.checkExists receivingCsvPath,
             Event.checkExists rosterCsvPath,
             Event.parseFile receivingCsvPath,
             Event.coerceTable "receiving",
             Event.parseFile rosterCsvPath,
             Event.coerceTable "roster",
             Event.openConn]
          match fault "receiving" with
          | some m =>
            { trace := pre ++ [Event.writeTable "receiving",
                Event.printError ("Error creating database: " ++ m),
                Event.closeConn]
              store := store0
              connOpened := true
              connClosed := true
              outcome := Except.error (RunError.storeError m) }
          | none =>
            let s1 := storeWrite store0 "receiving" rcv
            match fault "roster" with
            | some m =>
              { trace := pre ++ [Event.writeTable "receiving",
                  Event.writeTable "roster",
                  Event.printError ("Error creating database: " ++ m),
                  Event.closeConn]
                store := s1
                connOpened := true
                connClosed := true
                outcome := Except.error (RunError.storeError m) }
            | none =>
              { trace := pre ++ [Event.writeTable "receiving",
                  Event.writeTable "roster",
                  Event.verifyTable "receiving",
                  Event.verifyTable "roster",
                  Event.closeConn]
                store := storeWrite s1 "roster" ros
                connOpened := true
                connClosed := true
                outcome := Except.ok () }

/-- A sqlite layer that raises nothing. -/
def noFault : String → Option String := fun _ => none

/-- The one-row receiving table of the spec's example: `#=10, GP=8, NO=0,
YDS=0, AVG=<empty>, TD=0, Long=0, AVG/G=<empty>, PlayerID=501`, with the
dtypes `read_csv` infers for it. -/
def rcvExample : Table := ⟨[
  ⟨"#", Dtype.int64, [Value.vInt 10]⟩,
  ⟨"GP", Dtype.int64, [Value.vInt 8]⟩,
  ⟨"NO", Dtype.int64, [Value.vInt 0]⟩,
  ⟨"YDS", Dtype.int64, [Value.vInt 0]⟩,
  ⟨"AVG", Dtype.float64, [Value.vNaN]⟩,
  ⟨"TD", Dtype.int64, [Value.vInt 0]⟩,
  ⟨"Long", Dtype.int64, [Value.vInt 0]⟩,
  ⟨"AVG/G", Dtype.float64, [Value.vNaN]⟩,
  ⟨"PlayerID", Dtype.int64, [Value.vInt 501]⟩]⟩

/-- A one-row roster table with the dtypes `read_csv` infers. -/
def rosterExample : Table := ⟨[
  ⟨"id", Dtype.int64, [Value.vInt 501]⟩,
  ⟨"number", Dtype.int64, [Value.vInt 10]⟩,
  ⟨"height", Dtype.object, [Value.vStr "6-4"]⟩,
  ⟨"weight", Dtype.float64, [Value.vNaN]⟩,
  ⟨"name", Dtype.object, [Value.vStr "J Smith"]⟩]⟩

/-- A receiving table whose `GP` column was inferred as float64 (the cell
text was `8.0`), so the int64 cast actually rewrites it. -/
def rcvFloatGP : Table := ⟨[
  ⟨"#", Dtype.int64, [Value.vInt 10]⟩,
  ⟨"GP", Dtype.float64, [Value.vFloat 8]⟩,
  ⟨"NO", Dtype.int64, [Value.vInt 0]⟩,
  ⟨"YDS", Dtype.int64, [Value.vInt 0]⟩,
  ⟨"AVG", Dtype.float64, [Value.vNaN]⟩,
  ⟨"TD", Dtype.int64, [Value.vInt 0]⟩,
  ⟨"Long", Dtype.int64, [Value.vInt 0]⟩,
  ⟨"AVG/G", Dtype.float64, [Value.vNaN]⟩,
  ⟨"PlayerID", Dtype.int64, [Value.vInt 501]⟩]⟩

/-- What the coercion block turns `rcvFloatGP` into. -/
def rcvFloatGPCoerced : Table := ⟨[
  ⟨"#", Dtype.int64, [Value.vInt 10]⟩,
  ⟨"GP", Dtype.int64, [Value.vInt 8]⟩,
  ⟨"NO", Dtype.int64, [Value.vInt 0]⟩,
  ⟨"YDS", Dtype.int64, [Value.vInt 0]⟩,
  ⟨"AVG", Dtype.float64, [Value.vNaN]⟩,
  ⟨"TD", Dtype.int64, [Value.vInt 0]⟩,
  ⟨"Long", Dtype.int64, [Value.vInt 0]⟩,
  ⟨"AVG/G", Dtype.float64, [Value.vNaN]⟩,
  ⟨"PlayerID", Dtype.int64, [Value.vInt 501]⟩]⟩

/-- A receiving table whose `GP` column (mapped to int64) has a missing
value. -/
def rcvMissingGP : Table := ⟨[
  ⟨"#", Dtype.int64, [Value.vInt 10]⟩,
  ⟨"GP", Dtype.float64, [Value.vNaN]⟩]⟩

/-- A sqlite layer that raises while the `receiving` table is written. -/
def diskFault : String → Option String :=
  fun nm => if nm == "receiving" then some "disk I/O error" else none

lemma coerceValueToInt_ok (v w : Value) (h : coerceValueToInt v = Except.ok w) :
    ∃ i, w = Value.vInt i := by
  cases v with
  | vInt i => exact ⟨i, by simpa [coerceValueToInt] using h.symm⟩
  | vFloat q => exact ⟨_, by simpa [coerceValueToInt] using h.symm⟩
  | vNaN => simp [coerceValueToInt] at h
  | vStr s =>
    simp only [coerceValueToInt] at h
    cases hs : s.toInt? with
    | none => rw [hs] at h; simp at h
    | some i => rw [hs] at h; simp at h; exact ⟨i, h.symm⟩
  | vNone => simp [coerceValueToInt] at h

lemma coerceValues_length (vs ws : List Value)
    (h : coerceValues vs = Except.ok ws) : ws.length = vs.length := by
  induction vs generalizing ws with
  | nil =>
    simp only [coerceValues, Except.ok.injEq] at h
    simp [← h]
  | cons v vs ih =>
    unfold coerceValues at h
    cases hv : coerceValueToInt v with
    | error e => rw [hv] at h; simp at h
    | ok w =>
      rw [hv] at h
      cases hvs : coerceValues vs with
      | error e => rw [hvs] at h; simp at h
      | ok ws2 =>
        rw [hvs] at h
        simp only [Except.ok.injEq] at h
        subst h
        simp [ih ws2 hvs]

lemma coerceValues_int (vs ws : List Value)
    (h : coerceValues vs = Except.ok ws) :
    ∀ w ∈ ws, ∃ i, w = Value.vInt i := by
  induction vs generalizing ws with
  | nil =>
    simp only [coerceValues, Except.ok.injEq] at h
    simp [← h]
  | cons v vs ih =>
    unfold coerceValues at h
    cases hv : coerceValueToInt v with
    | error e => rw [hv] at h; simp at h
    | ok w =>
      rw [hv] at h
      cases hvs : coerceValues vs with
      | error e => rw [hvs] at h; simp at h
      | ok ws2 =>
        rw [hvs] at h
        simp only [Except.ok.injEq] at h
        subst h
        intro x hx
        rcases List.mem_cons.mp hx with hx | hx
        · subst hx; exact coerceValueToInt_ok v x hv
        · exact ih ws2 hvs x hx

lemma coerceValues_missing (vs : List Value)
    (h : Value.vNaN ∈ vs ∨ Value.vNone ∈ vs) :
    ∃ e, coerceValues vs = Except.error e := by
  induction vs with
  | nil => simp at h
  | cons v vs ih =>
    by_cases hv : Value.vNaN = v ∨ Value.vNone = v
    · rcases hv with hv | hv <;> (subst hv; exact ⟨_, rfl⟩)
    · push_neg at hv
      have htail : Value.vNaN ∈ vs ∨ Value.vNone ∈ vs := by
        rcases h with h | h
        · exact Or.inl ((List.mem_cons.mp h).resolve_left (fun hc => hv.1 hc))
        · exact Or.inr ((List.mem_cons.mp h).resolve_left (fun hc => hv.2 hc))
      rcases ih htail with ⟨e, he⟩
      cases hvv : coerceValueToInt v with
      | error e2 => exact ⟨e2, by simp [coerceValues, hvv]⟩
      | ok w => exact ⟨e, by simp [coerceValues, hvv, he]⟩

lemma coerceValues_id (vs : List Value)
    (h : ∀ v ∈ vs, ∃ i, v = Value.vInt i) : coerceValues vs = Except.ok vs := by
  induction vs with
  | nil => rfl
  | cons v vs ih =>
    rcases h v (List.mem_cons_self v vs) with ⟨i, hi⟩
    subst hi
    have htail := ih (fun w hw => h w (List.mem_cons_of_mem _ hw))
    simp [coerceValues, coerceValueToInt, htail]

lemma coerceColumnToInt_ok (col col2 : Column)
    (h : coerceColumnToInt col = Except.ok col2) :
    col2.name = col.name ∧ col2.dtype = Dtype.int64 ∧
    col2.values.length = col.values.length ∧
    ∀ v ∈ col2.values, ∃ i, v = Value.vInt i := by
  unfold coerceColumnToInt at h
  cases hv : coerceValues col.values with
  | error e => rw [hv] at h; simp at h
  | ok ws =>
    rw [hv] at h
    simp only [Except.ok.injEq] at h
    subst h
    exact ⟨rfl, rfl, coerceValues_length _ _ hv, coerceValues_int _ _ hv⟩

lemma coerceColumnToInt_missing (col : Column)
    (h : Value.vNaN ∈ col.values ∨ Value.vNone ∈ col.values) :
    ∃ e, coerceColumnToInt col = Except.error e := by
  rcases coerceValues_missing col.values h with ⟨e, he⟩
  exact ⟨e, by simp [coerceColumnToInt, he]⟩

lemma coerceColumnToInt_id (col : Column)
    (hd : col.dtype = Dtype.int64)
    (hv : ∀ v ∈ col.values, ∃ i, v = Value.vInt i) :
    coerceColumnToInt col = Except.ok col := by
  have := coerceValues_id col.values hv
  cases col with
  | mk nm d vs =>
    simp only at hd
    subst hd
    simp only [coerceColumnToInt] at *
    simp [this]

lemma coerceStep_ok (c : String) (col col2 : Column)
    (h : (if col.name == c then coerceColumnToInt col else Except.ok col) =
          Except.ok col2) :
    col2.name = col.name ∧ col2.values.length = col.values.length ∧
    (col.name ≠ c → col2 = col) ∧
    (col.name = c → col2.dtype = Dtype.int64 ∧
      ∀ v ∈ col2.values, ∃ i, v = Value.vInt i) := by
  by_cases hb : (col.name == c) = true
  · rw [if_pos hb] at h
    have hk := coerceColumnToInt_ok col col2 h
    exact ⟨hk.1, hk.2.2.1, fun hne => absurd (eq_of_beq hb) hne,
      fun _ => ⟨hk.2.1, hk.2.2.2⟩⟩
  · rw [if_neg hb] at h
    simp only [Except.ok.injEq] at h
    subst h
    exact ⟨rfl, rfl, fun _ => rfl,
      fun he => absurd (beq_iff_eq.mpr he) hb⟩

lemma coerceCols_names (c : String) (cols cols2 : List Column)
    (h : coerceCols c cols = Except.ok cols2) :
    cols2.map Column.name = cols.map Column.name := by
  induction cols generalizing cols2 with
  | nil =>
    simp only [coerceCols, Except.ok.injEq] at h
    simp [← h]
  | cons col rest ih =>
    unfold coerceCols at h
    cases hstep : (if col.name == c then coerceColumnToInt col
        else Except.ok col) with
    | error e => rw [hstep] at h; simp at h
    | ok col2 =>
      rw [hstep] at h
      cases hrest : coerceCols c rest with
      | error e => rw [hrest] at h; simp at h
      | ok rest2 =>
        rw [hrest] at h
        simp only [Except.ok.injEq] at h
        subst h
        simp [(coerceStep_ok c col col2 hstep).1, ih rest2 hrest]

lemma coerceCols_lengths (c : String) (cols cols2 : List Column)
    (h : coerceCols c cols = Except.ok cols2) :
    cols2.map (fun col => col.values.length) =
      cols.map (fun col => col.values.length) := by
  induction cols generalizing cols2 with
  | nil =>
    simp only [coerceCols, Except.ok.injEq] at h
    simp [← h]
  | cons col rest ih =>
    unfold coerceCols at h
    cases hstep : (if col.name == c then coerceColumnToInt col
        else Except.ok col) with
    | error e => rw [hstep] at h; simp at h
    | ok col2 =>
      rw [hstep] at h
      cases hrest : coerceCols c rest with
      | error e => rw [hrest] at h; simp at h
      | ok rest2 =>
        rw [hrest] at h
        simp only [Except.ok.injEq] at h
        subst h
        simp [(coerceStep_ok c col col2 hstep).2.1, ih rest2 hrest]

lemma lookupCol_cons (col : Column) (rest : List Column) (c2 : String) :
    lookupCol (col :: rest) c2 =
      if col.name == c2 then some col else lookupCol rest c2 := by
  cases hb : (col.name == c2) <;> simp [lookupCol, List.find?_cons, hb]

lemma coerceCols_frame (c c2 : String) (cols cols2 : List Column)
    (hne : c2 ≠ c) (h : coerceCols c cols = Except.ok cols2) :
    lookupCol cols2 c2 = lookupCol cols c2 := by
  induction cols generalizing cols2 with
  | nil =>
    simp only [coerceCols, Except.ok.injEq] at h
    simp [← h]
  | cons col rest ih =>
    unfold coerceCols at h
    cases hstep : (if col.name == c then coerceColumnToInt col
        else Except.ok col) with
    | error e => rw [hstep] at h; simp at h
    | ok col2 =>
      rw [hstep] at h
      cases hrest : coerceCols c rest with
      | error e => rw [hrest] at h; simp at h
      | ok rest2 =>
        rw [hrest] at h
        simp only [Except.ok.injEq] at h
        subst h
        have hname := (coerceStep_ok c col col2 hstep).1
        rw [lookupCol_cons, lookupCol_cons, hname]
        by_cases hb : (col.name == c2) = true
        · have hcol : col2 = col := by
            refine (coerceStep_ok c col col2 hstep).2.2.1 ?_
            rw [eq_of_beq hb]
            exact hne
          rw [if_pos hb, if_pos hb, hcol]
        · rw [if_neg hb, if_neg hb]
          exact ih rest2 hrest

lemma coerceCols_hit (c : String) (cols cols2 : List Column) (col0 : Column)
    (h : coerceCols c cols = Except.ok cols2)
    (hl : lookupCol cols c = some col0) :
    ∃ col2, lookupCol cols2 c = some col2 ∧ col2.name = col0.name ∧
      col2.dtype = Dtype.int64 ∧ col2.values.length = col0.values.length ∧
      ∀ v ∈ col2.values, ∃ i, v = Value.vInt i := by
  induction cols generalizing cols2 with
  | nil => simp [lookupCol] at hl
  | cons col rest ih =>
    unfold coerceCols at h
    cases hstep : (if col.name == c then coerceColumnToInt col
        else Except.ok col) with
    | error e => rw [hstep] at h; simp at h
    | ok col2 =>
      rw [hstep] at h
      cases hrest : coerceCols c rest with
      | error e => rw [hrest] at h; simp at h
      | ok rest2 =>
        rw [hrest] at h
        simp only [Except.ok.injEq] at h
        subst h
        have hstepk := coerceStep_ok c col col2 hstep
        rw [lookupCol_cons] at hl
        rw [lookupCol_cons, hstepk.1]
        by_cases hb : (col.name == c) = true
        · rw [if_pos hb] at hl
          rw [if_pos hb]
          have hcol0 : col0 = col := by
            simpa using hl.symm
          subst hcol0
          have hint := hstepk.2.2.2 (eq_of_beq hb)
          exact ⟨col2, rfl, hstepk.1, hint.1, hstepk.2.1, hint.2⟩
        · rw [if_neg hb] at hl
          rw [if_neg hb]
          exact ih rest2 hrest hl

lemma coerceCols_missing (c : String) (cols : List Column) (col0 : Column)
    (hl : lookupCol cols c = some col0)
    (hm : Value.vNaN ∈ col0.values ∨ Value.vNone ∈ col0.values) :
    ∃ e, coerceCols c cols = Except.error e := by
  induction cols with
  | nil => simp [lookupCol] at hl
  | cons col rest ih =>
    rw [lookupCol_cons] at hl
    by_cases hb : (col.name == c) = true
    · rw [if_pos hb] at hl
      have hcol0 : col0 = col := by simpa using hl.symm
      subst hcol0
      rcases coerceColumnToInt_missing col0 hm with ⟨e, he⟩
      exact ⟨e, by simp [coerceCols, hb, he]⟩
    · rw [if_neg hb] at hl
      rcases ih hl with ⟨e, he⟩
      cases hstep : (if col.name == c then coerceColumnToInt col
          else Except.ok col) with
      | error e2 =>
        refine ⟨e2, ?_⟩
        unfold coerceCols
        rw [hstep]
      | ok col2 =>
        refine ⟨e, ?_⟩
        unfold coerceCols
        rw [hstep, he]

lemma coerceCols_preserve (c2 c : String) (cols cols2 : List Column)
    (col0 : Column)
    (h : coerceCols c2 cols = Except.ok cols2)
    (hl : lookupCol cols c = some col0)
    (hd : col0.dtype = Dtype.int64)
    (hv : ∀ v ∈ col0.values, ∃ i, v = Value.vInt i) :
    lookupCol cols2 c = some col0 := by
  induction cols generalizing cols2 with
  | nil => simp [lookupCol] at hl
  | cons col rest ih =>
    unfold coerceCols at h
    cases hstep : (if col.name == c2 then coerceColumnToInt col
        else Except.ok col) with
    | error e => rw [hstep] at h; simp at h
    | ok col2 =>
      rw [hstep] at h
      cases hrest : coerceCols c2 rest with
      | error e => rw [hrest] at h; simp at h
      | ok rest2 =>
        rw [hrest] at h
        simp only [Except.ok.injEq] at h
        subst h
        have hstepk := coerceStep_ok c2 col col2 hstep
        rw [lookupCol_cons] at hl
        rw [lookupCol_cons, hstepk.1]
        by_cases hb : (col.name == c) = true
        · rw [if_pos hb] at hl
          have hcol0 : col0 = col := by simpa using hl.symm
          rw [if_pos hb]
          by_cases hb2 : col.name = c2
          · have hd2 : col.dtype = Dtype.int64 := by rw [← hcol0]; exact hd
            have hv2 : ∀ v ∈ col.values, ∃ i, v = Value.vInt i := by
              rw [← hcol0]; exact hv
            rw [if_pos (beq_iff_eq.mpr hb2),
              coerceColumnToInt_id col hd2 hv2] at hstep
            have hcc : col = col2 := by simpa using hstep
            rw [← hcc, hcol0]
          · rw [if_neg (fun hc => hb2 (eq_of_beq hc))] at hstep
            have hcc : col = col2 := by simpa using hstep
            rw [← hcc, hcol0]
        · rw [if_neg hb] at hl
          rw [if_neg hb]
          exact ih rest2 hrest hl

lemma hasCol_lookup (cols : List Column) (c : String)
    (h : hasCol cols c = true) : ∃ col, lookupCol cols c = some col := by
  induction cols with
  | nil => simp [hasCol] at h
  | cons col rest ih =>
    rw [lookupCol_cons]
    by_cases hb : (col.name == c) = true
    · exact ⟨col, if_pos hb⟩
    · rw [if_neg hb]
      simp only [hasCol, List.any_cons, Bool.or_eq_true] at h
      rcases h with h | h
      · exact absurd h hb
      · exact ih h

lemma astypeInt64_ok_elim (t : Table) (c : String) (t2 : Table)
    (h : t.astypeInt64 c = Except.ok t2) :
    coerceCols c t.cols = Except.ok t2.cols := by
  unfold Table.astypeInt64 at h
  by_cases hb : hasCol t.cols c = true
  · rw [if_pos hb] at h
    cases hc : coerceCols c t.cols with
    | error e => rw [hc] at h; simp at h
    | ok cols2 =>
      rw [hc] at h
      simp only [Except.ok.injEq] at h
      rw [← h]
  · rw [if_neg hb] at h
    simp at h

lemma astypeInt64_ok_exists (t : Table) (c : String) (t2 : Table)
    (h : t.astypeInt64 c = Except.ok t2) :
    ∃ col, t.lookup c = some col := by
  unfold Table.astypeInt64 at h
  by_cases hb : hasCol t.cols c = true
  · exact hasCol_lookup t.cols c hb
  · rw [if_neg hb] at h
    simp at h

lemma astypeInt64_names (t : Table) (c : String) (t2 : Table)
    (h : t.astypeInt64 c = Except.ok t2) : t2.colNames = t.colNames :=
  coerceCols_names c t.cols t2.cols (astypeInt64_ok_elim t c t2 h)

lemma astypeInt64_rowCounts (t : Table) (c : String) (t2 : Table)
    (h : t.astypeInt64 c = Except.ok t2) : t2.rowCounts = t.rowCounts :=
  coerceCols_lengths c t.cols t2.cols (astypeInt64_ok_elim t c t2 h)

lemma astypeInt64_frame (t : Table) (c c2 : String) (t2 : Table)
    (hne : c2 ≠ c) (h : t.astypeInt64 c = Except.ok t2) :
    t2.lookup c2 = t.lookup c2 :=
  coerceCols_frame c c2 t.cols t2.cols hne (astypeInt64_ok_elim t c t2 h)

lemma astypeInt64_hit (t : Table) (c : String) (t2 : Table) (col0 : Column)
    (h : t.astypeInt64 c = Except.ok t2) (hl : t.lookup c = some col0) :
    ∃ col2, t2.lookup c = some col2 ∧ col2.name = col0.name ∧
      col2.dtype = Dtype.int64 ∧ col2.values.length = col0.values.length ∧
      ∀ v ∈ col2.values, ∃ i, v = Value.vInt i :=
  coerceCols_hit c t.cols t2.cols col0 (astypeInt64_ok_elim t c t2 h) hl

lemma astypeInt64_missing (t : Table) (c : String) (col0 : Column)
    (hl : t.lookup c = some col0)
    (hm : Value.vNaN ∈ col0.values ∨ Value.vNone ∈ col0.values) :
    ∃ e, t.astypeInt64 c = Except.error e := by
  by_cases hb : hasCol t.cols c = true
  · rcases coerceCols_missing c t.cols col0 hl hm with ⟨e, he⟩
    refine ⟨e, ?_⟩
    unfold Table.astypeInt64
    rw [if_pos hb, he]
  · refine ⟨"KeyError: " ++ c, ?_⟩
    unfold Table.astypeInt64
    rw [if_neg hb]

lemma astypeInt64_preserve (t : Table) (c2 c : String) (t2 : Table)
    (col0 : Column)
    (h : t.astypeInt64 c2 = Except.ok t2) (hl : t.lookup c = some col0)
    (hd : col0.dtype = Dtype.int64)
    (hv : ∀ v ∈ col0.values, ∃ i, v = Value.vInt i) :
    t2.lookup c = some col0 :=
  coerceCols_preserve c2 c t.cols t2.cols col0
    (astypeInt64_ok_elim t c2 t2 h) hl hd hv

lemma coerceColumns_names (cs : List String) (t t2 : Table)
    (h : coerceColumns t cs = Except.ok t2) : t2.colNames = t.colNames := by
  induction cs generalizing t with
  | nil =>
    simp only [coerceColumns, Except.ok.injEq] at h
    rw [h]
  | cons c cs ih =>
    unfold coerceColumns at h
    cases hst : t.astypeInt64 c with
    | error e => rw [hst] at h; simp at h
    | ok t1 =>
      rw [hst] at h
      rw [ih t1 h, astypeInt64_names t c t1 hst]

lemma coerceColumns_rowCounts (cs : List String) (t t2 : Table)
    (h : coerceColumns t cs = Except.ok t2) : t2.rowCounts = t.rowCounts := by
  induction cs generalizing t with
  | nil =>
    simp only [coerceColumns, Except.ok.injEq] at h
    rw [h]
  | cons c cs ih =>
    unfold coerceColumns at h
    cases hst : t.astypeInt64 c with
    | error e => rw [hst] at h; simp at h
    | ok t1 =>
      rw [hst] at h
      rw [ih t1 h, astypeInt64_rowCounts t c t1 hst]

lemma coerceColumns_frame (cs : List String) (c : String) (t t2 : Table)
    (hnc : c ∉ cs) (h : coerceColumns t cs = Except.ok t2) :
    t2.lookup c = t.lookup c := by
  induction cs generalizing t with
  | nil =>
    simp only [coerceColumns, Except.ok.injEq] at h
    rw [h]
  | cons c0 cs ih =>
    unfold coerceColumns at h
    cases hst : t.astypeInt64 c0 with
    | error e => rw [hst] at h; simp at h
    | ok t1 =>
      rw [hst] at h
      have hne : c ≠ c0 := fun hc => hnc (hc ▸ List.mem_cons_self c0 cs)
      rw [ih t1 (fun hc => hnc (List.mem_cons_of_mem c0 hc)) h,
        astypeInt64_frame t c0 c t1 hne hst]

lemma coerceColumns_preserve (cs : List String) (c : String) (t t2 : Table)
    (col0 : Column)
    (h : coerceColumns t cs = Except.ok t2) (hl : t.lookup c = some col0)
    (hd : col0.dtype = Dtype.int64)
    (hv : ∀ v ∈ col0.values, ∃ i, v = Value.vInt i) :
    t2.lookup c = some col0 := by
  induction cs generalizing t with
  | nil =>
    simp only [coerceColumns, Except.ok.injEq] at h
    rw [← h]
    exact hl
  | cons c0 cs ih =>
    unfold coerceColumns at h
    cases hst : t.astypeInt64 c0 with
    | error e => rw [hst] at h; simp at h
    | ok t1 =>
      rw [hst] at h
      exact ih t1 h (astypeInt64_preserve t c0 c t1 col0 hst hl hd hv)

lemma coerceColumns_hit (cs : List String) (c : String) (t t2 : Table)
    (hc : c ∈ cs) (h : coerceColumns t cs = Except.ok t2) :
    ∃ col2, t2.lookup c = some col2 ∧ col2.dtype = Dtype.int64 ∧
      ∀ v ∈ col2.values, ∃ i, v = Value.vInt i := by
  induction cs generalizing t with
  | nil => simp at hc
  | cons c0 cs ih =>
    unfold coerceColumns at h
    cases hst : t.astypeInt64 c0 with
    | error e => rw [hst] at h; simp at h
    | ok t1 =>
      rw [hst] at h
      by_cases hcc : c = c0
      · subst hcc
        rcases astypeInt64_ok_exists t c t1 hst with ⟨col0, hl⟩
        rcases astypeInt64_hit t c t1 col0 hst hl with
          ⟨col2, hl2, _, hd2, _, hv2⟩
        exact ⟨col2, coerceColumns_preserve cs c t1 t2 col2 h hl2 hd2 hv2,
          hd2, hv2⟩
      · exact ih t1 ((List.mem_cons.mp hc).resolve_left hcc) h

lemma coerceColumns_missing (cs : List String) (c : String) (t : Table)
    (col0 : Column) (hc : c ∈ cs) (hl : t.lookup c = some col0)
    (hm : Value.vNaN ∈ col0.values ∨ Value.vNone ∈ col0.values) :
    ∃ e, coerceColumns t cs = Except.error e := by
  induction cs generalizing t with
  | nil => simp at hc
  | cons c0 cs ih =>
    by_cases hcc : c = c0
    · subst hcc
      rcases astypeInt64_missing t c col0 hl hm with ⟨e, he⟩
      refine ⟨e, ?_⟩
      unfold coerceColumns
      rw [he]
    · cases hst : t.astypeInt64 c0 with
      | error e =>
        refine ⟨e, ?_⟩
        unfold coerceColumns
        rw [hst]
      | ok t1 =>
        have hl1 : t1.lookup c = some col0 := by
          rw [astypeInt64_frame t c0 c t1 hcc hst]
          exact hl
        rcases ih t1 ((List.mem_cons.mp hc).resolve_left hcc) hl1 with ⟨e, he⟩
        refine ⟨e, ?_⟩
        unfold coerceColumns
        rw [hst]
        exact he

lemma find?_filter_other (s : Store) (nm nm2 : String) (hne : nm2 ≠ nm) :
    (s.filter (fun p => p.1 != nm)).find? (fun p => p.1 == nm2) =
      s.find? (fun p => p.1 == nm2) := by
  induction s with
  | nil => rfl
  | cons p s ih =>
    by_cases hb : (p.1 != nm) = true
    · rw [List.filter_cons, if_pos hb, List.find?_cons, List.find?_cons]
      cases hc : (p.1 == nm2) with
      | true => rfl
      | false => exact ih
    · have hp : p.1 = nm := by simpa using hb
      rw [List.filter_cons, if_neg hb, List.find?_cons]
      have hc : (p.1 == nm2) = false := by
        rw [hp]
        exact beq_eq_false_iff_ne.mpr (fun h => hne h.symm)
      rw [hc]
      exact ih

lemma storeLookup_write_self (s : Store) (nm : String) (t : Table) :
    storeLookup (storeWrite s nm t) nm = some t := by
  unfold storeLookup storeWrite
  rw [List.find?_append]
  have h1 : (s.filter (fun p => p.1 != nm)).find? (fun p => p.1 == nm) =
      none := by
    rw [List.find?_eq_none]
    intro x hx
    have hx2 := (List.mem_filter.mp hx).2
    simp only [bne_iff_ne, ne_eq] at hx2
    simp [hx2]
  rw [h1]
  simp [List.find?_cons]

lemma storeLookup_write_other (s : Store) (nm nm2 : String) (t : Table)
    (hne : nm2 ≠ nm) :
    storeLookup (storeWrite s nm t) nm2 = storeLookup s nm2 := by
  unfold storeLookup storeWrite
  rw [List.find?_append]
  have h2 : ([(nm, t)].find? (fun p => p.1 == nm2)) = none := by
    have hb : (nm == nm2) = false := beq_eq_false_iff_ne.mpr
      (fun h => hne h.symm)
    simp [List.find?_cons, hb]
  rw [h2, find?_filter_other s nm nm2 hne]
  cases s.find? (fun p => p.1 == nm2) <;> rfl

lemma run_success_eq (rt ot rc oc : Table) (s0 : Store)
    (f : String → Option String)
    (hr : coerceReceiving rt = Except.ok rc)
    (ho : coerceRoster ot = Except.ok oc)
    (hf1 : f "receiving" = none) (hf2 : f "roster" = none) :
    run (some rt) (some ot) s0 f =
      { trace := [Event.checkExists receivingCsvPath,
          Event.checkExists rosterCsvPath,
          Event.parseFile receivingCsvPath, Event.coerceTable "receiving",
          Event.parseFile rosterCsvPath, Event.coerceTable "roster",
          Event.openConn, Event.writeTable "receiving",
          Event.writeTable "roster", Event.verifyTable "receiving",
          Event.verifyTable "roster", Event.closeConn]
        store := storeWrite (storeWrite s0 "receiving" rc) "roster" oc
        connOpened := true
        connClosed := true
        outcome := Except.ok () } := by
  simp [run, hr, ho, hf1, hf2]

lemma run_ok_inv (orc oro : Option Table) (s0 : Store)
    (f : String → Option String)
    (h : (run orc oro s0 f).outcome = Except.ok ()) :
    ∃ rt ot rc oc, orc = some rt ∧ oro = some ot ∧
      coerceReceiving rt = Except.ok rc ∧ coerceRoster ot = Except.ok oc ∧
      f "receiving" = none ∧ f "roster" = none := by
  cases orc with
  | none => simp [run] at h
  | some rt =>
    cases oro with
    | none => simp [run] at h
    | some ot =>
      cases hcr : coerceReceiving rt with
      | error e => simp [run, hcr] at h
      | ok rc =>
        cases hco : coerceRoster ot with
        | error e => simp [run, hcr, hco] at h
        | ok oc =>
          cases hf1 : f "receiving" with
          | some m => simp [run, hcr, hco, hf1] at h
          | none =>
            cases hf2 : f "roster" with
            | some m => simp [run, hcr, hco, hf1, hf2] at h
            | none => exact ⟨rt, ot, rc, oc, rfl, rfl, hcr, hco, rfl, rfl⟩


/-- C9: once the store connection has been opened (line 67), it is closed
on every exit path of the run — on successful completion and before any
error raised during the table writes or the verification queries
propagates out (the `finally: conn.close()` of lines 118-119). -/
theorem connection_closed_on_all_paths (orc oro : Option Table) (s0 : Store)
    (f : String → Option String)
    (h : (run orc oro s0 f).connOpened = true) :
    (run orc oro s0 f).connClosed = true := by
  cases orc with
  | none => simp [run] at h
  | some rt =>
    cases oro with
    | none => simp [run] at h
    | some ot =>
      cases hcr : coerceReceiving rt with
      | error e => simp [run, hcr] at h
      | ok rc =>
        cases hco : coerceRoster ot with
        | error e => simp [run, hcr, hco] at h
        | ok oc =>
          cases hf1 : f "receiving" with
          | some m => simp [run, hcr, hco, hf1]
          | none =>
            cases hf2 : f "roster" with
            | some m => simp [run, hcr, hco, hf1, hf2]
            | none => simp [run, hcr, hco, hf1, hf2]

/-- Witness for C9: a concrete successful run opens the connection, and
the theorem yields that it is closed. -/
theorem connection_closed_on_all_paths_witness :
    (run (some rcvExample) (some rosterExample) [] noFault).connClosed =
      true :=
  connection_closed_on_all_paths (some rcvExample) (some rosterExample) []
    noFault rfl

/-- C10: the store connection is opened only after both tables have been
parsed and coerced (whenever the connection opens, the first seven trace
events are exactly check/check/parse/coerce/parse/coerce/open), and a
missing-file or coercion failure leaves the connection never opened and
the store unmutated. -/
theorem connection_opened_only_after_coercion (orc oro : Option Table)
    (s0 : Store) (f : String → Option String) :
    ((run orc oro s0 f).connOpened = true →
      (run orc oro s0 f).trace.take 7 =
        [Event.checkExists receivingCsvPath,
         Event.checkExists rosterCsvPath,
         Event.parseFile receivingCsvPath, Event.coerceTable "receiving",
         Event.parseFile rosterCsvPath, Event.coerceTable "roster",
         Event.openConn])
    ∧ (∀ p, (run orc oro s0 f).outcome =
          Except.error (RunError.fileNotFound p) →
        (run orc oro s0 f).connOpened = false ∧
        (run orc oro s0 f).store = s0)
    ∧ (∀ m, (run orc oro s0 f).outcome =
          Except.error (RunError.coercionError m) →
        (run orc oro s0 f).connOpened = false ∧
        (run orc oro s0 f).store = s0) := by
  cases orc with
  | none => simp [run]
  | some rt =>
    cases oro with
    | none => simp [run]
    | some ot =>
      cases hcr : coerceReceiving rt with
      | error e => simp [run, hcr]
      | ok rc =>
        cases hco : coerceRoster ot with
        | error e => simp [run, hcr, hco]
        | ok oc =>
          cases hf1 : f "receiving" with
          | some m => simp [run, hcr, hco, hf1]
          | none =>
            cases hf2 : f "roster" with
            | some m => simp [run, hcr, hco, hf1, hf2]
            | none => simp [run, hcr, hco, hf1, hf2]

/-- Witness for C10: on a concrete successful run the connection opens,
and the theorem pins the first seven trace events. -/
theorem connection_opened_only_after_coercion_witness :
    (run (some rcvExample) (some rosterExample) [] noFault).trace.take 7 =
      [Event.checkExists receivingCsvPath,
       Event.checkExists rosterCsvPath,
       Event.parseFile receivingCsvPath, Event.coerceTable "receiving",
       Event.parseFile rosterCsvPath, Event.coerceTable "roster",
       Event.openConn] :=
  (connection_opened_only_after_coercion (some rcvExample)
    (some rosterExample) [] noFault).1 rfl

/-- C2: if either CSV is missing the run fails with the file-not-found
error naming that path and no parse is ever attempted; and whenever any
parse happens, the two existence checks are the first two events, before
any parsing of either file. -/
theorem existence_checked_before_parsing (orc oro : Option Table)
    (s0 : Store) (f : String → Option String) :
    ((orc = none → (run orc oro s0 f).outcome =
        Except.error (RunError.fileNotFound receivingCsvPath) ∧
        ∀ p, Event.parseFile p ∉ (run orc oro s0 f).trace)
    ∧ (orc ≠ none → oro = none → (run orc oro s0 f).outcome =
        Except.error (RunError.fileNotFound rosterCsvPath) ∧
        ∀ p, Event.parseFile p ∉ (run orc oro s0 f).trace)
    ∧ (∀ p, Event.parseFile p ∈ (run orc oro s0 f).trace →
        (run orc oro s0 f).trace.take 2 =
          [Event.checkExists receivingCsvPath,
           Event.checkExists rosterCsvPath])) := by
  cases orc with
  | none => simp [run]
  | some rt =>
    cases oro with
    | none => simp [run]
    | some ot =>
      cases hcr : coerceReceiving rt with
      | error e => simp [run, hcr]
      | ok rc =>
        cases hco : coerceRoster ot with
        | error e => simp [run, hcr, hco]
        | ok oc =>
          cases hf1 : f "receiving" with
          | some m => simp [run, hcr, hco, hf1]
          | none =>
            cases hf2 : f "roster" with
            | some m => simp [run, hcr, hco, hf1, hf2]
            | none => simp [run, hcr, hco, hf1, hf2]

/-- Witness for C2: with `Data/roster.csv` missing, the run reports that
path and never parses the receiving file. -/
theorem existence_checked_before_parsing_witness :
    (run (some rcvExample) none [] noFault).outcome =
      Except.error (RunError.fileNotFound rosterCsvPath) :=
  ((existence_checked_before_parsing (some rcvExample) none []
    noFault).2.1 (by simp) rfl).1

/-- C1 (counterexample): it is not the case that every failing run prints
an error line before the error propagates — a missing input file makes
the run fail with nothing but the existence check in the trace, so no
`printError` event occurs. -/
theorem error_sometimes_unprinted :
    ¬ (∀ (orc oro : Option Table) (s0 : Store)
        (f : String → Option String),
        (run orc oro s0 f).outcome ≠ Except.ok () →
        ∃ m, Event.printError m ∈ (run orc oro s0 f).trace) := by
  intro hclaim
  rcases hclaim none none [] noFault (by simp [run]) with ⟨m, hm⟩
  simp [run] at hm

/-- C1 (amended): only failures raised after the store connection is
opened — the sqlite errors of the `try` block — are announced by the
one-line `print` of the `except` clause before they propagate; a
missing-file or coercion failure propagates with no `printError` event at
all. -/
theorem store_errors_print_one_line (orc oro : Option Table) (s0 : Store)
    (f : String → Option String) :
    ((∀ m, (run orc oro s0 f).outcome =
        Except.error (RunError.storeError m) →
      Event.printError ("Error creating database: " ++ m) ∈
        (run orc oro s0 f).trace ∧
      (run orc oro s0 f).connClosed = true)
    ∧ (∀ p m, (run orc oro s0 f).outcome =
        Except.error (RunError.fileNotFound p) →
      Event.printError m ∉ (run orc oro s0 f).trace)
    ∧ (∀ e m, (run orc oro s0 f).outcome =
        Except.error (RunError.coercionError e) →
      Event.printError m ∉ (run orc oro s0 f).trace)) := by
  cases orc with
  | none => simp [run]
  | some rt =>
    cases oro with
    | none => simp [run]
    | some ot =>
      cases hcr : coerceReceiving rt with
      | error e => simp [run, hcr]
      | ok rc =>
        cases hco : coerceRoster ot with
        | error e => simp [run, hcr, hco]
        | ok oc =>
          cases hf1 : f "receiving" with
          | some m => simp [run, hcr, hco, hf1]
          | none =>
            cases hf2 : f "roster" with
            | some m => simp [run, hcr, hco, hf1, hf2]
            | none => simp [run, hcr, hco, hf1, hf2]

/-- Witness for the amended C1: a concrete sqlite failure while writing
`receiving` is announced by the printed one-line error message. -/
theorem store_errors_print_one_line_witness :
    Event.printError ("Error creating database: " ++ "disk I/O error") ∈
      (run (some rcvExample) (some rosterExample) [] diskFault).trace :=
  ((store_errors_print_one_line (some rcvExample) (some rosterExample) []
    diskFault).1 "disk I/O error" rfl).1

/-- C3: the coerce step never adds, drops or reorders columns and leaves
every column's cell count unchanged — for both the receiving and the
roster table only the per-column dtype metadata changes shape-wise. -/
theorem coercion_preserves_shape (t t2 u u2 : Table)
    (hr : coerceReceiving t = Except.ok t2)
    (ho : coerceRoster u = Except.ok u2) :
    t2.colNames = t.colNames ∧ t2.rowCounts = t.rowCounts ∧
    u2.colNames = u.colNames ∧ u2.rowCounts = u.rowCounts :=
  ⟨coerceColumns_names receivingIntCols t t2 hr,
   coerceColumns_rowCounts receivingIntCols t t2 hr,
   coerceColumns_names rosterIntCols u u2 ho,
   coerceColumns_rowCounts rosterIntCols u u2 ho⟩

/-- Witness for C3 at a table whose `GP` column is actually rewritten by
the cast. -/
theorem coercion_preserves_shape_witness :
    Table.colNames rcvFloatGPCoerced = Table.colNames rcvFloatGP ∧
    Table.rowCounts rcvFloatGPCoerced = Table.rowCounts rcvFloatGP := by
  have h := coercion_preserves_shape rcvFloatGP rcvFloatGPCoerced
    rosterExample rosterExample (by decide) (by decide)
  exact ⟨h.1, h.2.1⟩

/-- C4: after a successful coercion the receiving columns `#`, `GP`,
`NO`, `YDS`, `TD`, `Long`, `PlayerID` and the roster columns `id`,
`number` are int64 columns holding only whole-number values with no
missing entries, while the roster `height` column is left exactly as
parsed (textual, never cast). -/
theorem coerced_columns_are_whole (t t2 u u2 : Table)
    (hr : coerceReceiving t = Except.ok t2)
    (ho : coerceRoster u = Except.ok u2) :
    (∀ c ∈ receivingIntCols, ∃ col, t2.lookup c = some col ∧
      col.dtype = Dtype.int64 ∧ ∀ v ∈ col.values, ∃ i, v = Value.vInt i)
    ∧ (∀ c ∈ rosterIntCols, ∃ col, u2.lookup c = some col ∧
      col.dtype = Dtype.int64 ∧ ∀ v ∈ col.values, ∃ i, v = Value.vInt i)
    ∧ u2.lookup "height" = u.lookup "height" :=
  ⟨fun c hc => coerceColumns_hit receivingIntCols c t t2 hc hr,
   fun c hc => coerceColumns_hit rosterIntCols c u u2 hc ho,
   coerceColumns_frame rosterIntCols "height" u u2 (by decide) ho⟩

/-- Witness for C4: the coerced `GP` column of the concrete example is an
int64 column of whole numbers. -/
theorem coerced_columns_are_whole_witness :
    ∃ col, Table.lookup rcvFloatGPCoerced "GP" = some col ∧
      col.dtype = Dtype.int64 ∧ ∀ v ∈ col.values, ∃ i, v = Value.vInt i :=
  (coerced_columns_are_whole rcvFloatGP rcvFloatGPCoerced rosterExample
    rosterExample (by decide) (by decide)).1 "GP" (by decide)

/-- C5: a missing value in any column named in a coercion map makes the
`astype` sequence raise (never a silent zero/null substitution), and for
the receiving map the whole run then fails with a coercion error. -/
theorem missing_value_fails_coercion (t : Table) (c : String)
    (col : Column) (cs : List String) (hc : c ∈ cs)
    (hl : t.lookup c = some col)
    (hm : Value.vNaN ∈ col.values ∨ Value.vNone ∈ col.values) :
    (∃ e, coerceColumns t cs = Except.error e)
    ∧ (c ∈ receivingIntCols → ∀ ot s0 f, ∃ e,
        (run (some t) (some ot) s0 f).outcome =
          Except.error (RunError.coercionError e)) := by
  refine ⟨coerceColumns_missing cs c t col hc hl hm, ?_⟩
  intro hcr ot s0 f
  rcases coerceColumns_missing receivingIntCols c t col hcr hl hm with
    ⟨e, he⟩
  exact ⟨e, by simp [run, coerceReceiving, he]⟩

/-- Witness for C5: a receiving table with an empty `GP` cell fails the
coercion block. -/
theorem missing_value_fails_coercion_witness :
    ∃ e, coerceColumns rcvMissingGP receivingIntCols = Except.error e :=
  (missing_value_fails_coercion rcvMissingGP "GP"
    ⟨"GP", Dtype.float64, [Value.vNaN]⟩ receivingIntCols (by decide) rfl
    (Or.inl (by decide))).1

/-- C6: columns not named in the coercion map (`AVG`, `AVG/G`, `weight`,
...) pass through the coerce step untouched — same dtype and cell values,
missing-value markers included. -/
theorem unmapped_columns_untouched (t t2 u u2 : Table) (c d : String) :
    (coerceReceiving t = Except.ok t2 → c ∉ receivingIntCols →
      t2.lookup c = t.lookup c)
    ∧ (coerceRoster u = Except.ok u2 → d ∉ rosterIntCols →
      u2.lookup d = u.lookup d) :=
  ⟨fun h hc => coerceColumns_frame receivingIntCols c t t2 hc h,
   fun h hd => coerceColumns_frame rosterIntCols d u u2 hd h⟩

/-- Witness for C6 at the spec's one-row example shape: the coercion
succeeds and the all-`NaN` `AVG` column comes through unchanged — still
absent, not zero. -/
theorem unmapped_columns_untouched_witness :
    Table.lookup rcvFloatGPCoerced "AVG" = Table.lookup rcvFloatGP "AVG" :=
  (unmapped_columns_untouched rcvFloatGP rcvFloatGPCoerced rosterExample
    rosterExample "AVG" "weight").1 (by decide) (by decide)

/-- C7: the store write is a destructive replace: whatever table of the
same name existed before, afterwards the store holds exactly the given
table under that name, and all other names are untouched — never a merge
or append. -/
theorem store_write_replaces (s : Store) (nm : String) (t : Table) :
    storeLookup (storeWrite s nm t) nm = some t ∧
    ∀ nm2, nm2 ≠ nm →
      storeLookup (storeWrite s nm t) nm2 = storeLookup s nm2 :=
  ⟨storeLookup_write_self s nm t,
   fun nm2 hne => storeLookup_write_other s nm nm2 t hne⟩

/-- Witness for C7: replacing a pre-existing `receiving` table of a
different schema leaves exactly the new table, with `roster` untouched. -/
theorem store_write_replaces_witness :
    storeLookup (storeWrite [("receiving", rosterExample)] "receiving"
      rcvExample) "receiving" = some rcvExample ∧
    storeLookup (storeWrite [("receiving", rosterExample)] "receiving"
      rcvExample) "roster" =
      storeLookup [("receiving", rosterExample)] "roster" :=
  ⟨(store_write_replaces [("receiving", rosterExample)] "receiving"
      rcvExample).1,
   (store_write_replaces [("receiving", rosterExample)] "receiving"
      rcvExample).2 "roster" (by decide)⟩

/-- C8: running the full pipeline twice on unchanged input files is
idempotent — the second run succeeds and both stored tables are identical
(schema, rows and all) to their state after the first run. -/
theorem pipeline_idempotent (orc oro : Option Table) (s0 : Store)
    (h : (run orc oro s0 noFault).outcome = Except.ok ()) :
    (run orc oro (run orc oro s0 noFault).store noFault).outcome =
      Except.ok () ∧
    storeLookup (run orc oro (run orc oro s0 noFault).store noFault).store
      "receiving" = storeLookup (run orc oro s0 noFault).store "receiving" ∧
    storeLookup (run orc oro (run orc oro s0 noFault).store noFault).store
      "roster" = storeLookup (run orc oro s0 noFault).store "roster" := by
  rcases run_ok_inv orc oro s0 noFault h with
    ⟨rt, ot, rc, oc, h1, h2, hcr, hco, _, _⟩
  subst h1
  subst h2
  have e1 := run_success_eq rt ot rc oc s0 noFault hcr hco rfl rfl
  have hstore1 : (run (some rt) (some ot) s0 noFault).store =
      storeWrite (storeWrite s0 "receiving" rc) "roster" oc := by rw [e1]
  have e2 := run_success_eq rt ot rc oc
    (storeWrite (storeWrite s0 "receiving" rc) "roster" oc) noFault
    hcr hco rfl rfl
  rw [hstore1, e2]
  refine ⟨rfl, ?_, ?_⟩
  · rw [storeLookup_write_other _ "roster" "receiving" _ (by decide),
      storeLookup_write_self,
      storeLookup_write_other _ "roster" "receiving" _ (by decide),
      storeLookup_write_self]
  · rw [storeLookup_write_self, storeLookup_write_self]

/-- Witness for C8: a concrete second run over the store left by a first
run (which itself started from a pre-populated store) succeeds. -/
theorem pipeline_idempotent_witness :
    (run (some rcvExample) (some rosterExample)
      (run (some rcvExample) (some rosterExample)
        [("receiving", rosterExample)] noFault).store noFault).outcome =
      Except.ok () :=
  (pipeline_idempotent (some rcvExample) (some rosterExample)
    [("receiving", rosterExample)] rfl).1
